import Mathlib

/-!
Verification of the Dockerfile-generation service (`app/services/dockerfile_creation.py`)
and the artifact-store router (`app/routers/files.py`).

The Python code is shallowly embedded: spreadsheet cells are modelled by their
`str()` rendering (pandas `fillna('')` turns every missing cell into the empty
string), Python dictionaries by insertion-ordered association lists, the
filesystem by an explicit tree value, and `json.loads` by an executable
fuel-bounded strict JSON parser.  Python helpers such as `str.strip`,
`str.split`, `"sep".join` are embedded explicitly so that their behaviour on
edge cases matches CPython.
-/

/-- Characters treated as whitespace by the embedded Python string helpers
(the ASCII whitespace relevant to this code base). -/
def isPyWs (c : Char) : Bool :=
  c == ' ' || c == '\t' || c == '\n' || c == '\r' || c == '\x0b' || c == '\x0c'

/-- Embedding of Python `str.strip()` on the character-list view. -/
def stripList (l : List Char) : List Char :=
  ((l.dropWhile isPyWs).reverse.dropWhile isPyWs).reverse

/-- Embedding of Python `str.strip()`. -/
def pyStrip (s : String) : String :=
  ⟨stripList s.data⟩

/-- Embedding of Python `"sep".join(xs)`. -/
def joinSep (sep : String) : List String → String
  | [] => ""
  | [x] => x
  | x :: y :: xs => x ++ sep ++ joinSep sep (y :: xs)

/-- Fuel-bounded worker collecting maximal runs of non-whitespace characters
(the fuel only needs to exceed the input length). -/
def wsTokensGo : Nat → List Char → List (List Char)
  | 0, _ => []
  | fuel + 1, l =>
    match l.dropWhile isPyWs with
    | [] => []
    | c :: rest =>
      ((c :: rest).takeWhile (fun ch => !isPyWs ch))
        :: wsTokensGo fuel ((c :: rest).dropWhile (fun ch => !isPyWs ch))

/-- Embedding of Python `str.split()` with no separator: split on whitespace
runs, dropping empty tokens. -/
def pySplitWs (s : String) : List String :=
  (wsTokensGo (s.data.length + 1) s.data).map String.mk

/-- Boolean prefix test on character lists. -/
def isPrefChars : List Char → List Char → Bool
  | [], _ => true
  | _ :: _, [] => false
  | a :: as, b :: bs => a == b && isPrefChars as bs

/-- Fuel-bounded worker for the separator split: each step either consumes
the separator occurrence at the head or moves one character into the current
part.  The fuel only needs to exceed the input length. -/
def splitSepGo (sep : List Char) : Nat → List Char → List (List Char)
  | 0, l => [l]
  | _ + 1, [] => [[]]
  | fuel + 1, c :: rest =>
    if isPrefChars sep (c :: rest) ∧ sep ≠ [] then
      [] :: splitSepGo sep fuel ((c :: rest).drop sep.length)
    else
      match splitSepGo sep fuel rest with
      | [] => [[c]]
      | p :: ps => (c :: p) :: ps

/-- Embedding of Python `s.split(sep)` for a non-empty separator, on the
character-list view: split at each leftmost non-overlapping occurrence of
`sep`, keeping empty parts (so the result always has one more part than there
are occurrences). -/
def splitSepChars (sep l : List Char) : List (List Char) :=
  splitSepGo sep (l.length + 1) l

/-- Embedding of Python `s.split(sep)`. -/
def pySplitSep (s sep : String) : List String :=
  (splitSepChars sep.data s.data).map String.mk

/-- Embedding of Python `s.replace(old, new)` for a non-empty pattern:
equivalent to splitting on the pattern and joining with the replacement. -/
def pyReplace (s pat repl : String) : String :=
  joinSep repl (pySplitSep s pat)

/-- Embedding of Python `str.upper()` for the ASCII text this code handles. -/
def pyUpper (s : String) : String :=
  ⟨s.data.map Char.toUpper⟩

/-- Python single-character membership test `c in s`. -/
def pyContainsChar (s : String) (c : Char) : Bool :=
  s.data.contains c

/-- Python `pat in s` substring test (for a non-empty pattern): `s` splits
into more than one part at `pat` exactly when `pat` occurs. -/
def strContainsSub (s pat : String) : Bool :=
  (splitSepChars pat.data s.data).length != 1

/-- `CopyInstruction` from `dockerfile_creation.py`: source, destination and an
optional origin stage. -/
structure CopyInstruction where
  src : String
  dest : String
  from_stage : Option String
deriving DecidableEq

/-- `CopyInstruction.to_docker`: the `--from=` qualifier is rendered when the
`from_stage` field is Python-truthy (present and non-empty). -/
def CopyInstruction.to_docker (c : CopyInstruction) : String :=
  if c.from_stage.getD "" ≠ "" then
    "COPY --from=" ++ c.from_stage.getD "" ++ " " ++ c.src ++ " " ++ c.dest
  else
    "COPY " ++ c.src ++ " " ++ c.dest

/-- `AddInstruction` from `dockerfile_creation.py`: source, destination and an
optional ownership spec. -/
structure AddInstruction where
  src : String
  dest : String
  chown : Option String
deriving DecidableEq

/-- `AddInstruction.to_docker`: the `--chown=` qualifier is rendered when the
`chown` field is Python-truthy. -/
def AddInstruction.to_docker (a : AddInstruction) : String :=
  if a.chown.getD "" ≠ "" then
    "ADD --chown=" ++ a.chown.getD "" ++ " " ++ a.src ++ " " ++ a.dest
  else
    "ADD " ++ a.src ++ " " ++ a.dest

/-- `DockerfileStage` from `dockerfile_creation.py`.  Optional string fields
hold `none` for Python `None`; the loader may also store empty strings, which
are Python-falsy and therefore behave like absent fields at rendering time.
Dict-valued fields (`env_vars`, `args`, `label_pairs`) are insertion-ordered
association lists, matching Python dict iteration order. -/
structure DockerfileStage where
  name : Option String
  base_image : String
  workdir : Option String
  add : List AddInstruction
  copy : List CopyInstruction
  run_commands : List String
  env_vars : List (String × String)
  args : List (String × String)
  expose_ports : List Int
  entrypoint : Option (List String)
  cmd : Option (List String)
  label_pairs : List (String × String)
  maintainer : Option String
  onbuild_cmd : Option String
  shell : Option (List String)
  stopsignal : Option String
  user : Option String
  volume_dirs : List String
  healthcheck : Option String
deriving DecidableEq

/-- Python truthiness of an optional string (`if stage.maintainer:`):
true iff present and non-empty. -/
def pyTruthyStr (o : Option String) : Bool :=
  o.getD "" != ""

/-- Python truthiness of an optional list (`if stage.shell:`):
true iff present and non-empty. -/
def pyTruthyList (o : Option (List String)) : Bool :=
  !(o.getD []).isEmpty

/-- `",".join(f'"{s}"' for s in xs)` used for SHELL/ENTRYPOINT/CMD rendering. -/
def joinQuoted (xs : List String) : String :=
  joinSep "," (xs.map (fun x => "\"" ++ x ++ "\""))

/-- The lines appended for one stage by the loop body of `generate_dockerfile`,
in source order. -/
def stageLines (s : DockerfileStage) : List String :=
  (if pyTruthyStr s.name then
    ["FROM " ++ s.base_image ++ " AS " ++ s.name.getD ""]
   else
    ["FROM " ++ s.base_image])
  ++ (if pyTruthyStr s.maintainer then ["MAINTAINER " ++ s.maintainer.getD ""] else [])
  ++ s.label_pairs.map (fun kv => "LABEL " ++ kv.1 ++ "=\"" ++ kv.2 ++ "\"")
  ++ s.args.map (fun kv => "ARG " ++ kv.1 ++ "=" ++ kv.2)
  ++ s.env_vars.map (fun kv => "ENV " ++ kv.1 ++ "=" ++ kv.2)
  ++ (if pyTruthyStr s.workdir then ["WORKDIR " ++ s.workdir.getD ""] else [])
  ++ s.add.map AddInstruction.to_docker
  ++ s.copy.map CopyInstruction.to_docker
  ++ s.run_commands.map (fun c => "RUN " ++ c)
  ++ (if pyTruthyStr s.onbuild_cmd then ["ONBUILD " ++ s.onbuild_cmd.getD ""] else [])
  ++ (if pyTruthyList s.shell then ["SHELL [" ++ joinQuoted (s.shell.getD []) ++ "]"] else [])
  ++ (if pyTruthyStr s.stopsignal then ["STOPSIGNAL " ++ s.stopsignal.getD ""] else [])
  ++ (if pyTruthyStr s.user then ["USER " ++ s.user.getD ""] else [])
  ++ s.volume_dirs.map (fun v => "VOLUME [\"" ++ v ++ "\"]")
  ++ s.expose_ports.map (fun p => "EXPOSE " ++ toString p)
  ++ (if pyTruthyStr s.healthcheck then ["HEALTHCHECK " ++ s.healthcheck.getD ""] else [])
  ++ (if pyTruthyList s.entrypoint then ["ENTRYPOINT [" ++ joinQuoted (s.entrypoint.getD []) ++ "]"] else [])
  ++ (if pyTruthyList s.cmd then ["CMD [" ++ joinQuoted (s.cmd.getD []) ++ "]"] else [])

/-- `generate_dockerfile` from `dockerfile_creation.py`: accumulate each
stage's lines followed by a spacing line, join with newlines, strip. -/
def generate_dockerfile (stages : List DockerfileStage) : String :=
  pyStrip (joinSep "\n" ((stages.map (fun s => stageLines s ++ [""])).flatten))

/-! ### Spec-side rendering order (from the spec's ordering rule, §4.2)

Each directive group below is written from the spec's words: a directive whose
field is absent or empty is omitted entirely, and the groups are concatenated
in the exact sequence the spec enumerates. -/

/-- Spec: base-image declaration, with stage name if present. -/
def fromDirective (s : DockerfileStage) : List String :=
  match s.name with
  | some n => if n = "" then ["FROM " ++ s.base_image] else ["FROM " ++ s.base_image ++ " AS " ++ n]
  | none => ["FROM " ++ s.base_image]

/-- Spec: maintainer directive, omitted when absent or empty. -/
def maintainerDirective (s : DockerfileStage) : List String :=
  match s.maintainer with
  | some m => if m = "" then [] else ["MAINTAINER " ++ m]
  | none => []

/-- Spec: one LABEL line per label pair, in map insertion order. -/
def labelDirectives (s : DockerfileStage) : List String :=
  s.label_pairs.map (fun kv => "LABEL " ++ kv.1 ++ "=\"" ++ kv.2 ++ "\"")

/-- Spec: one ARG line per build argument, in map insertion order. -/
def argDirectives (s : DockerfileStage) : List String :=
  s.args.map (fun kv => "ARG " ++ kv.1 ++ "=" ++ kv.2)

/-- Spec: one ENV line per environment variable, in map insertion order. -/
def envDirectives (s : DockerfileStage) : List String :=
  s.env_vars.map (fun kv => "ENV " ++ kv.1 ++ "=" ++ kv.2)

/-- Spec: working-directory directive, omitted when absent or empty. -/
def workdirDirective (s : DockerfileStage) : List String :=
  match s.workdir with
  | some w => if w = "" then [] else ["WORKDIR " ++ w]
  | none => []

/-- Spec: add instructions in list order. -/
def addDirectives (s : DockerfileStage) : List String :=
  s.add.map AddInstruction.to_docker

/-- Spec: copy instructions in list order. -/
def copyDirectives (s : DockerfileStage) : List String :=
  s.copy.map CopyInstruction.to_docker

/-- Spec: run commands in list order. -/
def runDirectives (s : DockerfileStage) : List String :=
  s.run_commands.map (fun c => "RUN " ++ c)

/-- Spec: on-build trigger, omitted when absent or empty. -/
def onbuildDirective (s : DockerfileStage) : List String :=
  match s.onbuild_cmd with
  | some c => if c = "" then [] else ["ONBUILD " ++ c]
  | none => []

/-- Spec: shell override, omitted when absent or empty. -/
def shellDirective (s : DockerfileStage) : List String :=
  match s.shell with
  | some l => if l = [] then [] else ["SHELL [" ++ joinQuoted l ++ "]"]
  | none => []

/-- Spec: stop-signal, omitted when absent or empty. -/
def stopsignalDirective (s : DockerfileStage) : List String :=
  match s.stopsignal with
  | some c => if c = "" then [] else ["STOPSIGNAL " ++ c]
  | none => []

/-- Spec: user spec, omitted when absent or empty. -/
def userDirective (s : DockerfileStage) : List String :=
  match s.user with
  | some c => if c = "" then [] else ["USER " ++ c]
  | none => []

/-- Spec: one VOLUME line per declared path. -/
def volumeDirectives (s : DockerfileStage) : List String :=
  s.volume_dirs.map (fun v => "VOLUME [\"" ++ v ++ "\"]")

/-- Spec: one EXPOSE line per port. -/
def exposeDirectives (s : DockerfileStage) : List String :=
  s.expose_ports.map (fun p => "EXPOSE " ++ toString p)

/-- Spec: healthcheck spec, omitted when absent or empty. -/
def healthcheckDirective (s : DockerfileStage) : List String :=
  match s.healthcheck with
  | some c => if c = "" then [] else ["HEALTHCHECK " ++ c]
  | none => []

/-- Spec: entrypoint vector, omitted when absent or empty. -/
def entrypointDirective (s : DockerfileStage) : List String :=
  match s.entrypoint with
  | some l => if l = [] then [] else ["ENTRYPOINT [" ++ joinQuoted l ++ "]"]
  | none => []

/-- Spec: command vector, omitted when absent or empty. -/
def cmdDirective (s : DockerfileStage) : List String :=
  match s.cmd with
  | some l => if l = [] then [] else ["CMD [" ++ joinQuoted l ++ "]"]
  | none => []

/-- One stage's lines in the spec's fixed order: base image → maintainer →
labels → args → env → workdir → add → copy → run → onbuild → shell →
stopsignal → user → volumes → expose → healthcheck → entrypoint → command. -/
def stageLinesSpec (s : DockerfileStage) : List String :=
  fromDirective s ++ maintainerDirective s ++ labelDirectives s ++ argDirectives s
  ++ envDirectives s ++ workdirDirective s ++ addDirectives s ++ copyDirectives s
  ++ runDirectives s ++ onbuildDirective s ++ shellDirective s ++ stopsignalDirective s
  ++ userDirective s ++ volumeDirectives s ++ exposeDirectives s ++ healthcheckDirective s
  ++ entrypointDirective s ++ cmdDirective s

/-! ### Key-value cell parsing (`parse_key_value_pairs`) -/

/-- Python dict assignment `d[k] = v` on an insertion-ordered association
list: an existing key keeps its position and gets the new value, a new key is
appended. -/
def dictInsert (d : List (String × String)) (k v : String) : List (String × String) :=
  if k ∈ d.map Prod.fst then d.map (fun p => if p.1 = k then (k, v) else p)
  else d ++ [(k, v)]

/-- Python `kv.split("=", 1)`: the part before the first `=` and everything
after it. -/
def splitFirstEq (kv : String) : String × String :=
  let parts := pySplitSep kv "="
  (parts.headD "", joinSep "=" parts.tail)

/-- The loop body of `parse_key_value_pairs` for one token: tokens without
`=` are dropped, others are split at the first `=`, trimmed and assigned. -/
def kvAssign (d : List (String × String)) (kv : String) : List (String × String) :=
  if pyContainsChar kv '=' then
    dictInsert d (pyStrip (splitFirstEq kv).1) (pyStrip (splitFirstEq kv).2)
  else d

/-- `parse_key_value_pairs` from `dockerfile_creation.py`: empty/blank cells
give an empty map; otherwise split on `sep` and assign each token into the
dict. -/
def parse_key_value_pairs (cell : String) (sep : String) : List (String × String) :=
  if pyStrip cell = "" then []
  else (pySplitSep cell sep).foldl kvAssign []

/-! ### Strict JSON decoding (`json.loads`)

A fuel-bounded executable parser for strict JSON, used to model the three
`json.loads` call sites.  Numbers are kept as their source literal (the
claims never depend on numeric normalisation). -/

/-- JSON values as decoded by the embedded `json.loads`. -/
inductive JVal where
  | jnull
  | jbool (b : Bool)
  | jnum (lit : String)
  | jstr (s : String)
  | jarr (items : List JVal)
  | jobj (fields : List (String × JVal))

/-- Skip JSON whitespace. -/
def skipJWs (l : List Char) : List Char :=
  l.dropWhile (fun c => c == ' ' || c == '\t' || c == '\n' || c == '\r')

/-- Hex digit value, if any. -/
def hexVal (c : Char) : Option Nat :=
  if '0' ≤ c ∧ c ≤ '9' then some (c.toNat - '0'.toNat)
  else if 'a' ≤ c ∧ c ≤ 'f' then some (c.toNat - 'a'.toNat + 10)
  else if 'A' ≤ c ∧ c ≤ 'F' then some (c.toNat - 'A'.toNat + 10)
  else none

/-- Parse the body of a JSON string (after the opening quote), handling the
standard escapes; control characters are rejected as in strict mode. -/
def parseJStrAux : Nat → List Char → List Char → Option (String × List Char)
  | 0, _, _ => none
  | _ + 1, _, [] => none
  | _ + 1, acc, '"' :: rest => some (⟨acc.reverse⟩, rest)
  | fuel + 1, acc, '\\' :: rest =>
    match rest with
    | '"' :: r => parseJStrAux fuel ('"' :: acc) r
    | '\\' :: r => parseJStrAux fuel ('\\' :: acc) r
    | '/' :: r => parseJStrAux fuel ('/' :: acc) r
    | 'b' :: r => parseJStrAux fuel (Char.ofNat 8 :: acc) r
    | 'f' :: r => parseJStrAux fuel (Char.ofNat 12 :: acc) r
    | 'n' :: r => parseJStrAux fuel ('\n' :: acc) r
    | 'r' :: r => parseJStrAux fuel ('\r' :: acc) r
    | 't' :: r => parseJStrAux fuel ('\t' :: acc) r
    | 'u' :: h1 :: h2 :: h3 :: h4 :: r =>
      match hexVal h1, hexVal h2, hexVal h3, hexVal h4 with
      | some a, some b, some c, some d =>
        parseJStrAux fuel (Char.ofNat (((a * 16 + b) * 16 + c) * 16 + d) :: acc) r
      | _, _, _, _ => none
    | _ => none
  | fuel + 1, acc, c :: rest =>
    if c.toNat < 32 then none else parseJStrAux fuel (c :: acc) rest

/-- Parse a JSON number literal at the head of the input, returning the
literal text and the remainder. -/
def parseJNum (l : List Char) : Option (String × List Char) :=
  let (sign, r1) := match l with
    | '-' :: r => (['-'], r)
    | r => (([] : List Char), r)
  let intDigits := r1.takeWhile Char.isDigit
  let r2 := r1.drop intDigits.length
  if intDigits = [] then none
  else if intDigits.length > 1 ∧ intDigits.headD '0' = '0' then none
  else
    let (fracPart, r3) := match r2 with
      | '.' :: fr =>
        let ds := fr.takeWhile Char.isDigit
        if ds = [] then (none, r2) else (some ('.' :: ds), fr.drop ds.length)
      | _ => (none, r2)
    match fracPart, r2 with
    | none, '.' :: _ => none
    | _, _ =>
      let (expPart, r4) := match r3 with
        | e :: es =>
          if e = 'e' ∨ e = 'E' then
            let (esign, es2) := match es with
              | '+' :: t => (['+'], t)
              | '-' :: t => (['-'], t)
              | t => (([] : List Char), t)
            let eds := es2.takeWhile Char.isDigit
            if eds = [] then (none, r3) else (some (e :: (esign ++ eds)), es2.drop eds.length)
          else (none, r3)
        | [] => (none, r3)
      match expPart, r3 with
      | none, e :: _ =>
        if e = 'e' ∨ e = 'E' then none
        else some (⟨sign ++ intDigits ++ (fracPart.getD []) ++ []⟩, r3)
      | none, [] => some (⟨sign ++ intDigits ++ (fracPart.getD [])⟩, r3)
      | some ep, _ => some (⟨sign ++ intDigits ++ (fracPart.getD []) ++ ep⟩, r4)

mutual

/-- Parse one JSON value (leading whitespace allowed). -/
def parseJVal : Nat → List Char → Option (JVal × List Char)
  | 0, _ => none
  | fuel + 1, cs =>
    match skipJWs cs with
    | 'n' :: 'u' :: 'l' :: 'l' :: r => some (.jnull, r)
    | 't' :: 'r' :: 'u' :: 'e' :: r => some (.jbool true, r)
    | 'f' :: 'a' :: 'l' :: 's' :: 'e' :: r => some (.jbool false, r)
    | '"' :: r =>
      match parseJStrAux (r.length + 1) [] r with
      | some (s, r2) => some (.jstr s, r2)
      | none => none
    | '[' :: r =>
      match skipJWs r with
      | ']' :: r2 => some (.jarr [], r2)
      | _ =>
        match parseJItems fuel r with
        | some (vs, r2) => some (.jarr vs, r2)
        | none => none
    | '{' :: r =>
      match skipJWs r with
      | '}' :: r2 => some (.jobj [], r2)
      | _ =>
        match parseJFields fuel r with
        | some (fs, r2) => some (.jobj fs, r2)
        | none => none
    | other =>
      match parseJNum other with
      | some (lit, r2) => some (.jnum lit, r2)
      | none => none

/-- Parse the comma-separated items of a non-empty JSON array, consuming the
closing bracket. -/
def parseJItems : Nat → List Char → Option (List JVal × List Char)
  | 0, _ => none
  | fuel + 1, cs =>
    match parseJVal fuel cs with
    | none => none
    | some (v, r1) =>
      match skipJWs r1 with
      | ',' :: r2 =>
        match parseJItems fuel r2 with
        | some (vs, r3) => some (v :: vs, r3)
        | none => none
      | ']' :: r2 => some ([v], r2)
      | _ => none

/-- Parse the comma-separated members of a non-empty JSON object, consuming
the closing brace. -/
def parseJFields : Nat → List Char → Option (List (String × JVal) × List Char)
  | 0, _ => none
  | fuel + 1, cs =>
    match skipJWs cs with
    | '"' :: r =>
      match parseJStrAux (r.length + 1) [] r with
      | none => none
      | some (k, r1) =>
        match skipJWs r1 with
        | ':' :: r2 =>
          match parseJVal fuel r2 with
          | none => none
          | some (v, r3) =>
            match skipJWs r3 with
            | ',' :: r4 =>
              match parseJFields fuel r4 with
              | some (fs, r5) => some ((k, v) :: fs, r5)
              | none => none
            | '\x7d' :: r4 => some ([(k, v)], r4)
            | _ => none
        | _ => none
    | _ => none

end

/-- `json.loads`: parse one value and require only whitespace afterwards. -/
def json_loads (s : String) : Option JVal :=
  match parseJVal (s.data.length + 4) s.data with
  | some (v, rest) => if skipJWs rest = [] then some v else none
  | none => none

/-! ### Field decoding in `load_configs_from_excel` -/

/-- Python `str()` of a decoded JSON scalar as it would be interpolated into
a rendered instruction.  Container values are abbreviated: no claim depends on
them (they can only appear via a successfully decoded nested structure, which
the loader stores unrendered). -/
def pyStrOfJVal : JVal → String
  | .jnull => "None"
  | .jbool true => "True"
  | .jbool false => "False"
  | .jnum lit => lit
  | .jstr s => s
  | .jarr _ => "<list>"
  | .jobj _ => "<dict>"

/-- Python dict lookup on decoded JSON object fields; JSON keeps the last
binding for a duplicated key. -/
def jGet (fields : List (String × JVal)) (k : String) : Option JVal :=
  (fields.reverse.find? (fun p => p.1 == k)).map (fun p => p.2)

/-- The `for a in add_list` loop of the loader: each element must be an object
with `src` and `dest`; a missing key or non-object element raises, which the
surrounding `except` swallows, keeping the instructions appended so far. -/
def extractAdds : List JVal → List AddInstruction
  | [] => []
  | .jobj fs :: rest =>
    match jGet fs "src", jGet fs "dest" with
    | some sv, some dv =>
      let chown := match jGet fs "chown" with
        | some .jnull => none
        | some v => some (pyStrOfJVal v)
        | none => none
      { src := pyStrOfJVal sv, dest := pyStrOfJVal dv, chown := chown } :: extractAdds rest
    | _, _ => []
  | _ :: _ => []

/-- The `for c in copy_list` loop of the loader, mirroring `extractAdds` with
the optional `from` key. -/
def extractCopies : List JVal → List CopyInstruction
  | [] => []
  | .jobj fs :: rest =>
    match jGet fs "src", jGet fs "dest" with
    | some sv, some dv =>
      let fs' := match jGet fs "from" with
        | some .jnull => none
        | some v => some (pyStrOfJVal v)
        | none => none
      { src := pyStrOfJVal sv, dest := pyStrOfJVal dv, from_stage := fs' } :: extractCopies rest
    | _, _ => []
  | _ :: _ => []

/-- The `add_files` cell decoder: blank cell gives no instructions; a JSON
decode failure (or a non-list decode, whose iteration raises) is swallowed,
also giving no instructions. -/
def decodeAddFiles (cell : String) : List AddInstruction :=
  if pyStrip cell = "" then []
  else
    match json_loads cell with
    | some (.jarr items) => extractAdds items
    | some _ => []
    | none => []

/-- The `copy_pairs` cell decoder, mirroring `decodeAddFiles`. -/
def decodeCopyPairs (cell : String) : List CopyInstruction :=
  if pyStrip cell = "" then []
  else
    match json_loads cell with
    | some (.jarr items) => extractCopies items
    | some _ => []
    | none => []

/-- View a decoded JSON value as the list of shell tokens the loader stores
(a decoded array element-wise; a decoded scalar is stored as-is by Python and
modelled as a one-token list). -/
def jValToStrList : JVal → List String
  | .jarr items => items.map pyStrOfJVal
  | v => [pyStrOfJVal v]

/-- The `shell` cell decoder: blank gives `None`; a successful JSON decode is
stored; a decode failure falls back to whitespace-tokenizing the cell. -/
def decodeShell (cell : String) : Option (List String) :=
  if pyStrip cell = "" then none
  else
    match json_loads cell with
    | some v => some (jValToStrList v)
    | none => some (pySplitWs cell)

/-- Decimal digits to a natural number. -/
def digitsToNat (l : List Char) : Nat :=
  l.foldl (fun n c => n * 10 + (c.toNat - '0'.toNat)) 0

/-- Embedding of Python `int(float(s))` on an already-stripped token: an
optional sign, digits, and an optional fractional part that truncation toward
zero discards; anything else (such as a non-numeric token) raises `ValueError`,
modelled as `none`.  Exponent and `inf`/`nan` forms are not produced by the
spreadsheet format and are not modelled. -/
def parsePyFloatInt (s : String) : Option Int :=
  let (neg, r1) := match s.data with
    | '-' :: r => (true, r)
    | '+' :: r => (false, r)
    | r => (false, r)
  let intPart := r1.takeWhile Char.isDigit
  let r2 := r1.drop intPart.length
  let mk : Nat → Option Int := fun n => some (if neg then -(n : Int) else (n : Int))
  match r2 with
  | [] => if intPart = [] then none else mk (digitsToNat intPart)
  | '.' :: fr =>
    if fr.all Char.isDigit ∧ (intPart ≠ [] ∨ fr ≠ []) then mk (digitsToNat intPart)
    else none
  | _ => none

/-- The `expose_ports` cell decoder: commas become semicolons, blank tokens
are skipped, and each remaining token goes through `int(float(...))`; a
non-numeric token raises and the error propagates out of the loader. -/
def parsePorts (cell : String) : Except String (List Int) :=
  if pyStrip cell = "" then .ok []
  else
    (pySplitSep (pyReplace cell "," ";") ";").foldlM
      (fun acc p =>
        if pyStrip p = "" then .ok acc
        else
          match parsePyFloatInt (pyStrip p) with
          | some n => .ok (acc ++ [n])
          | none => .error ("could not convert string to float: " ++ pyStrip p))
      []

/-- The `run_commands` cell decoder: split on `;`, trim, drop empty tokens. -/
def parseRunCommands (cell : String) : List String :=
  if pyStrip cell = "" then []
  else ((pySplitSep cell ";").map pyStrip).filter (fun c => c ≠ "")

/-- The `volume_dirs` cell decoder: commas become semicolons, then as for run
commands. -/
def parseVolumeDirs (cell : String) : List String :=
  if pyStrip cell = "" then []
  else ((pySplitSep (pyReplace cell "," ";") ";").map pyStrip).filter (fun v => v ≠ "")

/-- The `entrypoint`/`cmd` cell decoder: whitespace tokens when the cell is
non-blank, otherwise absent. -/
def parseTokenVec (cell : String) : Option (List String) :=
  if pyStrip cell = "" then none else some (pySplitWs cell)

/-- One spreadsheet row after `fillna('')`: every cell is modelled by its
`str()` rendering, a missing cell being the empty string.  (All expected
columns are assumed present, as in the shipped spreadsheet template; a missing
*column* would abort the whole load at the first row.) -/
structure Row where
  app_name : String
  stage_name : String
  base_image : String
  workdir : String
  add_files : String
  copy_pairs : String
  run_commands : String
  env_vars : String
  args : String
  label_pairs : String
  expose_ports : String
  entrypoint : String
  cmd : String
  shell : String
  volume_dirs : String
  maintainer : String
  onbuild_cmd : String
  stopsignal : String
  user : String
  healthcheck : String

/-- The loop body of `load_configs_from_excel` for one row: every field
decoder except the port parser degrades on malformed input; a port-parse
failure is an uncaught exception that propagates. -/
def loadRow (row : Row) : Except String DockerfileStage := do
  let ports ← parsePorts row.expose_ports
  pure
    { name := some row.stage_name
      base_image := row.base_image
      workdir := some row.workdir
      add := decodeAddFiles row.add_files
      copy := decodeCopyPairs row.copy_pairs
      run_commands := parseRunCommands row.run_commands
      env_vars := parse_key_value_pairs row.env_vars ";"
      args := parse_key_value_pairs row.args ";"
      expose_ports := ports
      entrypoint := parseTokenVec row.entrypoint
      cmd := parseTokenVec row.cmd
      label_pairs := parse_key_value_pairs row.label_pairs ";"
      maintainer := some row.maintainer
      onbuild_cmd := some row.onbuild_cmd
      shell := decodeShell row.shell
      stopsignal := some row.stopsignal
      user := some row.user
      volume_dirs := parseVolumeDirs row.volume_dirs
      healthcheck := some row.healthcheck }

/-- `app_configs[app_name].append(stage)` with on-demand list creation, on an
insertion-ordered association list. -/
def addStageToConfigs (m : List (String × List DockerfileStage)) (app : String)
    (st : DockerfileStage) : List (String × List DockerfileStage) :=
  if app ∈ m.map Prod.fst then
    m.map (fun p => if p.1 = app then (p.1, p.2 ++ [st]) else p)
  else m ++ [(app, [st])]

/-- `load_configs_from_excel` over the row list of the spreadsheet: rows are
processed in order with no per-row exception handling, so a failing row aborts
the whole load. -/
def load_configs_from_excel (rows : List Row) :
    Except String (List (String × List DockerfileStage)) :=
  rows.foldlM
    (fun m row => do
      let st ← loadRow row
      pure (addStageToConfigs m row.app_name st))
    []

/-! ### Filesystem model for `app/routers/files.py`

The output directory is a list of top-level entries; an application directory
carries its name, last-modified time (seconds), and a tree of children.
Every router operation re-derives everything from this value, matching the
code's re-scanning of the filesystem on each call. -/

/-- One node inside an application directory: a regular file with its content,
or a subdirectory. -/
inductive FSNode where
  | file (name : String) (content : String)
  | dir (name : String) (children : List FSNode)

/-- Name of a node. -/
def fsName : FSNode → String
  | .file n _ => n
  | .dir n _ => n

mutual

/-- Recursive byte size of one node (`os.path.getsize` summed by `os.walk`). -/
def nodeSize : FSNode → Nat
  | .file _ c => c.utf8ByteSize
  | .dir _ cs => nodesSize cs

/-- Recursive byte size of a node list. -/
def nodesSize : List FSNode → Nat
  | [] => 0
  | n :: ns => nodeSize n + nodesSize ns

end

/-- One entry of the output directory (`os.listdir(OUTPUT_DIR)`): its name,
whether it is a directory, its last-modified time in seconds, and its
children (meaningful only for directories). -/
structure AppEntry where
  name : String
  isDir : Bool
  mtime : Int
  children : List FSNode

/-- `get_directory_size` on an application directory. -/
def get_directory_size (e : AppEntry) : Nat :=
  nodesSize e.children

/-- The guard every loop applies: `os.path.isdir(item_path) and not
item.startswith('.')`. -/
def considered (e : AppEntry) : Bool :=
  e.isDir && !(e.name.startsWith ".")

/-- `len([f for f in os.listdir(item_path) if not f.startswith('.')]) == 0`. -/
def isEmptyApp (e : AppEntry) : Bool :=
  (e.children.filter (fun n => !((fsName n).startsWith "."))).length == 0

/-- Result of looking for the `Dockerfile` entry: absent, present but not a
readable regular file (`open` raises), or present with its content. -/
inductive DfStatus where
  | absent
  | unreadable
  | content (c : String)
deriving DecidableEq

/-- `os.path.exists` plus `open(...).read()` on `<app>/Dockerfile`. -/
def findDockerfile (e : AppEntry) : DfStatus :=
  match e.children.find? (fun n => fsName n == "Dockerfile") with
  | none => .absent
  | some (.file _ c) => .content c
  | some (.dir _ _) => .unreadable

/-- The invalidity check of `cleanup_invalid_apps`: no Dockerfile, unreadable
Dockerfile, stripped-empty content, or no `"FROM "` substring in the
uppercased content. -/
def isInvalidApp (e : AppEntry) : Bool :=
  match findDockerfile e with
  | .absent => true
  | .unreadable => true
  | .content c =>
    let c' := pyStrip c
    (c' == "") || !(strContainsSub (pyUpper c') "FROM ")

/-- The reason string `cleanup_invalid_apps` reports for an invalid app. -/
def invalidReason (e : AppEntry) : String :=
  match findDockerfile e with
  | .absent => "No Dockerfile found"
  | .unreadable => "Error reading Dockerfile"
  | .content c =>
    if pyStrip c == "" then "Empty Dockerfile" else "No FROM instruction in Dockerfile"

/-- One deletion report of `cleanup_old_files`. -/
structure AgeDeleted where
  name : String
  mtime : Int
  sizeBytes : Nat
deriving DecidableEq

/-- `cleanup_old_files`: delete every considered entry whose modification time
precedes `now` minus `days` days, reporting name, time and pre-deletion size;
returns the reports in scan order together with the surviving entries. -/
def cleanup_old_files (days now : Int) : List AppEntry → List AgeDeleted × List AppEntry
  | [] => ([], [])
  | e :: es =>
    let r := cleanup_old_files days now es
    if considered e && decide (e.mtime < now - days * 86400) then
      ({ name := e.name, mtime := e.mtime, sizeBytes := get_directory_size e } :: r.1, r.2)
    else (r.1, e :: r.2)

/-- `cleanup_empty_directories`: delete every considered entry with no
non-hidden children. -/
def cleanup_empty_directories : List AppEntry → List String × List AppEntry
  | [] => ([], [])
  | e :: es =>
    let r := cleanup_empty_directories es
    if considered e && isEmptyApp e then (e.name :: r.1, r.2) else (r.1, e :: r.2)

/-- One deletion report of `cleanup_invalid_apps`. -/
structure InvDeleted where
  name : String
  reason : String
deriving DecidableEq

/-- `cleanup_invalid_apps`: delete every considered entry classified invalid,
reporting its name and reason. -/
def cleanup_invalid_apps : List AppEntry → List InvDeleted × List AppEntry
  | [] => ([], [])
  | e :: es =>
    let r := cleanup_invalid_apps es
    if considered e && isInvalidApp e then
      ({ name := e.name, reason := invalidReason e } :: r.1, r.2)
    else (r.1, e :: r.2)

/-- One row of the preview response. -/
structure PreviewApp where
  name : String
  mtime : Int
  sizeBytes : Nat
  willBeDeleted : Bool
  reasons : List String
deriving DecidableEq

/-- The loop body of `preview_cleanup` for one considered entry: the age,
emptiness and invalidity criteria are applied in order, each setting the
deletion flag and appending its reason. -/
def previewApp (days : Option Int) (show_empty show_invalid : Bool) (now : Int)
    (e : AppEntry) : PreviewApp :=
  let w1 : Bool × List String :=
    match days with
    | some d =>
      if e.mtime < now - d * 86400 then
        (true, ["Older than " ++ toString d ++ " days"])
      else (false, [])
    | none => (false, [])
  let w2 : Bool × List String :=
    if show_empty && isEmptyApp e then (true, w1.2 ++ ["Empty directory"]) else w1
  let w3 : Bool × List String :=
    if show_invalid then
      match findDockerfile e with
      | .absent => (true, w2.2 ++ ["No Dockerfile found"])
      | .unreadable => (true, w2.2 ++ ["Error reading Dockerfile"])
      | .content c =>
        if pyStrip c == "" then (true, w2.2 ++ ["Empty Dockerfile"])
        else if !(strContainsSub (pyUpper (pyStrip c)) "FROM ") then
          (true, w2.2 ++ ["No FROM instruction in Dockerfile"])
        else w2
    else w2
  { name := e.name
    mtime := e.mtime
    sizeBytes := get_directory_size e
    willBeDeleted := w3.1
    reasons := w3.2 }

/-- `preview_cleanup`: classify every considered entry without deleting. -/
def preview_cleanup (days : Option Int) (show_empty show_invalid : Bool) (now : Int)
    (st : List AppEntry) : List PreviewApp :=
  (st.filter considered).map (previewApp days show_empty show_invalid now)

/-- `os.path.exists(os.path.join(item_path, "Dockerfile"))`. -/
def hasDockerfileEntry (e : AppEntry) : Bool :=
  e.children.any (fun n => fsName n == "Dockerfile")

/-- The invalidity check of `get_storage_summary`: starts from
`has_dockerfile`, then reads the Dockerfile (a read failure counts as
invalid) and applies the same stripped-empty / `"FROM "`-substring test. -/
def isInvalidSummary (e : AppEntry) : Bool :=
  if !(hasDockerfileEntry e) then true
  else
    match findDockerfile e with
    | .content c => (pyStrip c == "") || !(strContainsSub (pyUpper (pyStrip c)) "FROM ")
    | _ => true

/-- One row of the storage-summary response. -/
structure SummaryApp where
  name : String
  sizeBytes : Nat
  has_dockerfile : Bool
  is_empty : Bool
  is_invalid : Bool
  mtime : Int
  file_count : Nat
deriving DecidableEq

/-- The per-app record `get_storage_summary` builds. -/
def summaryAppOf (e : AppEntry) : SummaryApp :=
  { name := e.name
    sizeBytes := get_directory_size e
    has_dockerfile := hasDockerfileEntry e
    is_empty := isEmptyApp e
    is_invalid := isInvalidSummary e
    mtime := e.mtime
    file_count := (e.children.filter (fun n => !((fsName n).startsWith "."))).length }

/-- The aggregate part of the storage-summary response. -/
structure StorageSummary where
  total_apps : Nat
  valid_apps : Nat
  empty_directories : Nat
  invalid_apps : Nat
  totalSizeBytes : Nat
  apps : List SummaryApp

/-- `get_storage_summary`: per-app records over the considered entries, the
counters accumulated by its loop (`dockerfile_count` counts apps with a
Dockerfile that are not invalid), and the records sorted by last-modified
descending. -/
def get_storage_summary (st : List AppEntry) : StorageSummary :=
  let apps0 := (st.filter considered).map summaryAppOf
  { total_apps := apps0.length
    valid_apps := (apps0.filter (fun a => a.has_dockerfile && !a.is_invalid)).length
    empty_directories := (apps0.filter (fun a => a.is_empty)).length
    invalid_apps := (apps0.filter (fun a => a.is_invalid)).length
    totalSizeBytes := (apps0.map (fun a => a.sizeBytes)).sum
    apps := apps0.mergeSort (fun a b => decide (b.mtime ≤ a.mtime)) }

/-- Python `str.lstrip()`. -/
def pyLStrip (s : String) : String :=
  ⟨s.data.dropWhile isPyWs⟩

/-- Spec-side notion of "the Dockerfile contains a FROM instruction": some
line's first whitespace-separated token is `FROM`, case-insensitively
(glossary: a directive is one instruction keyword, which Docker requires at
the start of a line). -/
def hasFromInstruction (c : String) : Bool :=
  (pySplitSep c "\n").any (fun l => pyUpper ((pySplitWs l).headD "") == "FROM")

/-! ### Concrete inputs used by witnesses and counterexamples -/

/-- The rendered text of one stage (its lines joined by newlines). -/
def stageBlock (s : DockerfileStage) : String :=
  joinSep "\n" (stageLines s)

/-- A minimal stage used as a concrete witness input. -/
def plainStage : DockerfileStage :=
  { name := none
    base_image := "ubuntu"
    workdir := none
    add := []
    copy := []
    run_commands := []
    env_vars := []
    args := []
    expose_ports := []
    entrypoint := none
    cmd := none
    label_pairs := []
    maintainer := none
    onbuild_cmd := none
    shell := none
    stopsignal := none
    user := none
    volume_dirs := []
    healthcheck := none }

/-- The trimmed key a token assigns. -/
def tokenKey (t : String) : String :=
  pyStrip (splitFirstEq t).1

/-- The all-blank spreadsheet row (every cell missing). -/
def blankRow : Row :=
  { app_name := ""
    stage_name := ""
    base_image := ""
    workdir := ""
    add_files := ""
    copy_pairs := ""
    run_commands := ""
    env_vars := ""
    args := ""
    label_pairs := ""
    expose_ports := ""
    entrypoint := ""
    cmd := ""
    shell := ""
    volume_dirs := ""
    maintainer := ""
    onbuild_cmd := ""
    stopsignal := ""
    user := ""
    healthcheck := "" }

/-- A malformed record: the `expose_ports` cell holds a non-numeric token. -/
def c2BadRow : Row :=
  { blankRow with app_name := "app1", base_image := "python:3.11-slim", expose_ports := "abc" }

/-- A well-formed record. -/
def c2GoodRow : Row :=
  { blankRow with app_name := "app2", base_image := "alpine:3.19", expose_ports := "8000" }

/-- A record whose required `base_image` cell is empty. -/
def c5EmptyBaseRow : Row :=
  { blankRow with app_name := "app1" }

/-- The concrete directory refuting claim C7 as stated: its Dockerfile has no
FROM instruction, yet the substring check classifies it valid. -/
def c7Entry : AppEntry :=
  { name := "app1"
    isDir := true
    mtime := 0
    children := [FSNode.file "Dockerfile" "RUN echo built from source"] }

/-! ### String-level helper lemmas -/

/-- Truthiness-guarded rendering of an optional string field matches the
spec's "omitted when absent or empty" formulation. -/
theorem optStrSeg_eq (o : Option String) (f : String → String) :
    (if pyTruthyStr o then [f (o.getD "")] else [])
      = (match o with | some m => if m = "" then [] else [f m] | none => []) := by
  cases o with
  | none => simp [pyTruthyStr]
  | some m =>
    by_cases h : m = "" <;> simp [pyTruthyStr, h]

/-- Truthiness-guarded rendering of an optional list field matches the
spec's "omitted when absent or empty" formulation. -/
theorem optListSeg_eq (o : Option (List String)) (f : List String → String) :
    (if pyTruthyList o then [f (o.getD [])] else [])
      = (match o with | some l => if l = [] then [] else [f l] | none => []) := by
  cases o with
  | none => simp [pyTruthyList]
  | some l =>
    by_cases h : l = [] <;> simp [pyTruthyList, h]

/-- The FROM line of the code matches the spec's base-image declaration. -/
theorem fromSeg_eq (s : DockerfileStage) :
    (if pyTruthyStr s.name then ["FROM " ++ s.base_image ++ " AS " ++ s.name.getD ""]
     else ["FROM " ++ s.base_image]) = fromDirective s := by
  unfold fromDirective
  cases hn : s.name with
  | none => simp [pyTruthyStr]
  | some n =>
    by_cases h : n = "" <;> simp [pyTruthyStr, h]

/-- The compiler's per-stage line list coincides with the spec-ordered one. -/
theorem stageLines_eq_spec (s : DockerfileStage) : stageLines s = stageLinesSpec s := by
  unfold stageLines stageLinesSpec
  rw [fromSeg_eq]
  rw [optStrSeg_eq s.maintainer (fun m => "MAINTAINER " ++ m)]
  rw [optStrSeg_eq s.workdir (fun w => "WORKDIR " ++ w)]
  rw [optStrSeg_eq s.onbuild_cmd (fun c => "ONBUILD " ++ c)]
  rw [optListSeg_eq s.shell (fun l => "SHELL [" ++ joinQuoted l ++ "]")]
  rw [optStrSeg_eq s.stopsignal (fun c => "STOPSIGNAL " ++ c)]
  rw [optStrSeg_eq s.user (fun c => "USER " ++ c)]
  rw [optStrSeg_eq s.healthcheck (fun c => "HEALTHCHECK " ++ c)]
  rw [optListSeg_eq s.entrypoint (fun l => "ENTRYPOINT [" ++ joinQuoted l ++ "]")]
  rw [optListSeg_eq s.cmd (fun l => "CMD [" ++ joinQuoted l ++ "]")]
  rfl




/-- Two strings with equal character data are equal. -/
theorem str_eq_of_data {a b : String} (h : a.data = b.data) : a = b := by
  cases a
  cases b
  exact congrArg String.mk h

/-- Appending the empty string is the identity. -/
theorem str_append_empty (a : String) : a ++ "" = a := by
  apply str_eq_of_data
  simp

/-- String append is associative. -/
theorem str_append_assoc (a b c : String) : a ++ b ++ c = a ++ (b ++ c) := by
  apply str_eq_of_data
  simp

/-- Dropping a trailing newline before stripping changes nothing. -/
theorem stripList_append_newline (l : List Char) :
    stripList (l ++ ['\n']) = stripList l := by
  unfold stripList
  rw [List.dropWhile_append]
  by_cases h : (l.dropWhile isPyWs).isEmpty = true
  · rw [if_pos h]
    have h2 : l.dropWhile isPyWs = [] := by simpa using h
    simp [h2, List.dropWhile_cons, isPyWs]
  · rw [if_neg h]
    have h3 : (l.dropWhile isPyWs ++ ['\n']).reverse
        = '\n' :: (l.dropWhile isPyWs).reverse := by simp
    rw [h3, List.dropWhile_cons]
    simp [isPyWs]

/-- Python `strip` absorbs a trailing newline. -/
theorem pyStrip_append_newline (s : String) : pyStrip (s ++ "\n") = pyStrip s := by
  unfold pyStrip
  apply str_eq_of_data
  have h : (s ++ "\n").data = s.data ++ ['\n'] := by simp
  simp only [h]
  exact stripList_append_newline s.data

/-- The head of `dropWhile p` never satisfies `p`. -/
theorem head_dropWhile_not (p : Char → Bool) (l : List Char) :
    ((l.dropWhile p).head?.all (fun c => !p c)) = true := by
  induction l with
  | nil => simp
  | cons a l ih =>
    by_cases h : p a <;> simp [List.dropWhile_cons, h, ih]

/-- The first character of a stripped string is not whitespace. -/
theorem stripList_head (l : List Char) :
    ((stripList l).head?.all (fun c => !isPyWs c)) = true := by
  unfold stripList
  rw [List.head?_reverse]
  cases hm : (l.dropWhile isPyWs).reverse.dropWhile isPyWs with
  | nil => simp
  | cons a m' =>
    have hsuf : ((l.dropWhile isPyWs).reverse.dropWhile isPyWs)
        <:+ (l.dropWhile isPyWs).reverse := List.dropWhile_suffix isPyWs
    obtain ⟨t, ht⟩ := hsuf
    rw [hm] at ht
    have h1 : ((l.dropWhile isPyWs).reverse).getLast? = (a :: m').getLast? := by
      rw [← ht, List.getLast?_append]
      cases hg : (a :: m').getLast? with
      | none => simp at hg
      | some y => simp [Option.or]
    have h2 : ((l.dropWhile isPyWs).reverse).getLast? = (l.dropWhile isPyWs).head? := by
      rw [List.getLast?_reverse]
    rw [← h1, h2]
    exact head_dropWhile_not isPyWs l

/-- The last character of a stripped string is not whitespace. -/
theorem stripList_last (l : List Char) :
    ((stripList l).getLast?.all (fun c => !isPyWs c)) = true := by
  unfold stripList
  rw [List.getLast?_reverse]
  exact head_dropWhile_not isPyWs _

/-- `join` distributes over the concatenation of two non-empty lists. -/
theorem joinSep_append (sep : String) (a b : List String) (ha : a ≠ []) (hb : b ≠ []) :
    joinSep sep (a ++ b) = joinSep sep a ++ sep ++ joinSep sep b := by
  induction a with
  | nil => exact absurd rfl ha
  | cons x xs ih =>
    cases xs with
    | nil =>
      cases b with
      | nil => exact absurd rfl hb
      | cons y ys => simp [joinSep]
    | cons x2 xs2 =>
      have h := ih (by simp)
      calc joinSep sep ((x :: x2 :: xs2) ++ b)
          = x ++ sep ++ joinSep sep ((x2 :: xs2) ++ b) := rfl
        _ = x ++ sep ++ (joinSep sep (x2 :: xs2) ++ sep ++ joinSep sep b) := by rw [h]
        _ = (x ++ sep ++ joinSep sep (x2 :: xs2)) ++ sep ++ joinSep sep b := by
            simp [str_append_assoc]
        _ = joinSep sep (x :: x2 :: xs2) ++ sep ++ joinSep sep b := rfl

/-- Every stage renders at least its FROM line. -/
theorem stageLines_ne_nil (s : DockerfileStage) : stageLines s ≠ [] := by
  unfold stageLines
  by_cases h : pyTruthyStr s.name = true <;> simp [h]

/-- Equation lemma: joining a singleton. -/
theorem joinSep_single (sep x : String) : joinSep sep [x] = x := rfl

/-- Equation lemma: joining a list with at least two elements. -/
theorem joinSep_cons2 (sep x y : String) (xs : List String) :
    joinSep sep (x :: y :: xs) = x ++ sep ++ joinSep sep (y :: xs) := rfl

/-- Joining all per-stage line groups (each followed by its spacing line)
equals the stage blocks joined by blank lines, plus one trailing newline. -/
theorem joinLines_blocks (stages : List DockerfileStage) (h : stages ≠ []) :
    joinSep "\n" ((stages.map (fun s => stageLines s ++ [""])).flatten)
      = joinSep "\n\n" (stages.map stageBlock) ++ "\n" := by
  induction stages with
  | nil => exact absurd rfl h
  | cons s rest ih =>
    cases rest with
    | nil =>
      simp only [List.map_cons, List.map_nil, List.flatten_cons, List.flatten_nil,
        List.append_nil]
      rw [joinSep_append "\n" (stageLines s) [""] (stageLines_ne_nil s) (by simp)]
      rw [joinSep_single, joinSep_single, str_append_empty]
      have hblock : stageBlock s = joinSep "\n" (stageLines s) := rfl
      rw [hblock]
    | cons s2 rest2 =>
      have hne : ((s2 :: rest2).map (fun s => stageLines s ++ [""])).flatten ≠ [] := by
        simp only [List.map_cons, List.flatten_cons]
        intro hc
        rcases List.append_eq_nil.mp hc with ⟨hc1, _⟩
        rcases List.append_eq_nil.mp hc1 with ⟨hc3, _⟩
        exact stageLines_ne_nil s2 hc3
      have step1 : ((s :: s2 :: rest2).map (fun s => stageLines s ++ [""])).flatten
          = (stageLines s ++ [""]) ++ ((s2 :: rest2).map (fun s => stageLines s ++ [""])).flatten := by
        simp
      rw [step1,
        joinSep_append "\n" (stageLines s ++ [""]) _ (by simp [stageLines_ne_nil s]) hne,
        joinSep_append "\n" (stageLines s) [""] (stageLines_ne_nil s) (by simp),
        ih (by simp)]
      simp only [List.map_cons]
      rw [joinSep_cons2, joinSep_single]
      have hblock : stageBlock s = joinSep "\n" (stageLines s) := rfl
      rw [hblock]
      have hnn : ("\n\n" : String) = "\n" ++ "\n" := rfl
      rw [hnn]
      simp only [str_append_empty, str_append_assoc]

/-- Claim C1: for every list of stages, the compiled Dockerfile text renders
each stage's directives in the spec's fixed order — base image (with stage
name when present), maintainer, labels, args, env, workdir, add, copy, run,
onbuild, shell, stopsignal, user, volumes, expose, healthcheck, entrypoint,
command — with absent or empty fields omitted entirely (as encoded by the
spec-side `stageLinesSpec`). -/
theorem spec_C1_directive_order (stages : List DockerfileStage) :
    generate_dockerfile stages
      = pyStrip (joinSep "\n" ((stages.map (fun s => stageLinesSpec s ++ [""])).flatten)) := by
  simp only [generate_dockerfile, stageLines_eq_spec]

/-- Claim C9: for every non-empty stage list, the compiled text is exactly the
stage blocks separated by one blank line (joined with a double newline), and
it neither starts nor ends with a newline character. -/
theorem spec_C9_block_separation (stages : List DockerfileStage) (h : stages ≠ []) :
    generate_dockerfile stages = pyStrip (joinSep "\n\n" (stages.map stageBlock))
      ∧ (generate_dockerfile stages).data.head? ≠ some '\n'
      ∧ (generate_dockerfile stages).data.getLast? ≠ some '\n' := by
  refine ⟨?_, ?_, ?_⟩
  · unfold generate_dockerfile
    rw [joinLines_blocks stages h]
    exact pyStrip_append_newline _
  · intro hc
    have hh := stripList_head (joinSep "\n" ((stages.map (fun s => stageLines s ++ [""])).flatten)).data
    have hdata : (generate_dockerfile stages).data
        = stripList (joinSep "\n" ((stages.map (fun s => stageLines s ++ [""])).flatten)).data := rfl
    rw [hdata] at hc
    rw [hc] at hh
    simp [isPyWs] at hh
  · intro hc
    have hh := stripList_last (joinSep "\n" ((stages.map (fun s => stageLines s ++ [""])).flatten)).data
    have hdata : (generate_dockerfile stages).data
        = stripList (joinSep "\n" ((stages.map (fun s => stageLines s ++ [""])).flatten)).data := rfl
    rw [hdata] at hc
    rw [hc] at hh
    simp [isPyWs] at hh

/-- Witness for C9 at the one-stage list `[plainStage]`. -/
theorem spec_C9_block_separation_witness :
    (([plainStage] : List DockerfileStage) ≠ [])
      ∧ (generate_dockerfile [plainStage]
          = pyStrip (joinSep "\n\n" ([plainStage].map stageBlock))
        ∧ (generate_dockerfile [plainStage]).data.head? ≠ some '\n'
        ∧ (generate_dockerfile [plainStage]).data.getLast? ≠ some '\n') :=
  ⟨by simp, spec_C9_block_separation [plainStage] (by simp)⟩

/-! ### Strip idempotence -/

/-- `dropWhile` is the identity when the head does not satisfy the predicate. -/
theorem dropWhile_eq_self_of_head (p : Char → Bool) (l : List Char)
    (h : (l.head?.all (fun c => !p c)) = true) : l.dropWhile p = l := by
  cases l with
  | nil => rfl
  | cons a l =>
    simp only [List.head?_cons, Option.all_some, Bool.not_eq_eq_eq_not, Bool.not_true] at h
    simp [List.dropWhile_cons, h]

/-- Stripping is idempotent on character lists. -/
theorem stripList_idem (l : List Char) : stripList (stripList l) = stripList l := by
  have h1 := stripList_head l
  have h2 := stripList_last l
  set r := stripList l with hr
  have hd : r.dropWhile isPyWs = r := dropWhile_eq_self_of_head _ _ h1
  have hd2 : r.reverse.dropWhile isPyWs = r.reverse := by
    apply dropWhile_eq_self_of_head
    rw [List.head?_reverse]
    exact h2
  show ((r.dropWhile isPyWs).reverse.dropWhile isPyWs).reverse = r
  rw [hd, hd2, List.reverse_reverse]

/-- Python strip is idempotent. -/
theorem pyStrip_idem (s : String) : pyStrip (pyStrip s) = pyStrip s := by
  apply str_eq_of_data
  exact stripList_idem s.data

/-! ### Dict-counting lemmas (claim C4) -/

/-- The key list after a dict assignment: unchanged for an existing key,
extended by the new key otherwise. -/
theorem dictInsert_keys (d : List (String × String)) (k v : String) :
    (dictInsert d k v).map Prod.fst
      = if k ∈ d.map Prod.fst then d.map Prod.fst else d.map Prod.fst ++ [k] := by
  unfold dictInsert
  by_cases h : k ∈ d.map Prod.fst
  · rw [if_pos h, if_pos h, List.map_map]
    apply List.map_congr_left
    intro p _
    by_cases hp : p.1 = k
    · simp [Function.comp, hp]
    · simp [Function.comp, hp]
  · rw [if_neg h, if_neg h, List.map_append]
    rfl

/-- Dict assignment keeps the keys duplicate-free. -/
theorem dictInsert_keys_nodup (d : List (String × String)) (k v : String)
    (h : (d.map Prod.fst).Nodup) : ((dictInsert d k v).map Prod.fst).Nodup := by
  rw [dictInsert_keys]
  by_cases hk : k ∈ d.map Prod.fst
  · simpa [hk] using h
  · simp [hk, List.nodup_append, h]

/-- The key set after a dict assignment is the old key set with the new key
inserted. -/
theorem dictInsert_keys_toFinset (d : List (String × String)) (k v : String) :
    ((dictInsert d k v).map Prod.fst).toFinset
      = insert k (d.map Prod.fst).toFinset := by
  rw [dictInsert_keys]
  by_cases hk : k ∈ d.map Prod.fst
  · rw [if_pos hk]
    exact (Finset.insert_eq_self.mpr (List.mem_toFinset.mpr hk)).symm
  · rw [if_neg hk]
    simp [List.toFinset_append, Finset.insert_eq, Finset.union_comm]

/-- Folding tokens into a dict keeps the keys duplicate-free and makes the
key set the union of the starting keys with the trimmed keys of all tokens
containing `=`. -/
theorem kvFold_nodup_toFinset (ts : List String) :
    ∀ d : List (String × String), (d.map Prod.fst).Nodup →
      ((ts.foldl kvAssign d).map Prod.fst).Nodup
      ∧ ((ts.foldl kvAssign d).map Prod.fst).toFinset
          = (d.map Prod.fst).toFinset
            ∪ ((ts.filter (fun t => pyContainsChar t '=')).map tokenKey).toFinset := by
  induction ts with
  | nil =>
    intro d hd
    exact ⟨hd, by simp⟩
  | cons t ts ih =>
    intro d hd
    rw [List.foldl_cons]
    by_cases ht : pyContainsChar t '=' = true
    · have hstep : kvAssign d t
          = dictInsert d (pyStrip (splitFirstEq t).1) (pyStrip (splitFirstEq t).2) := by
        simp [kvAssign, ht]
      have hnod : ((kvAssign d t).map Prod.fst).Nodup := by
        rw [hstep]; exact dictInsert_keys_nodup d _ _ hd
      obtain ⟨hih1, hih2⟩ := ih (kvAssign d t) hnod
      refine ⟨hih1, ?_⟩
      rw [hih2, hstep, dictInsert_keys_toFinset]
      have hfil : List.filter (fun t => pyContainsChar t '=') (t :: ts)
          = t :: List.filter (fun t => pyContainsChar t '=') ts := by
        simp [List.filter_cons, ht]
      rw [hfil, List.map_cons, List.toFinset_cons]
      simp [tokenKey, Finset.insert_union, Finset.union_insert]
    · have hstep : kvAssign d t = d := by
        simp [kvAssign, ht]
      have hfil : List.filter (fun t => pyContainsChar t '=') (t :: ts)
          = List.filter (fun t => pyContainsChar t '=') ts := by
        simp [List.filter_cons, ht]
      rw [hstep, hfil]
      exact ih d hd

/-- If a cell strips to the empty string, every character of it is
whitespace. -/
theorem stripList_eq_nil_all_ws (l : List Char) (h : stripList l = []) :
    ∀ c ∈ l, isPyWs c = true := by
  unfold stripList at h
  have h2 : (l.dropWhile isPyWs).reverse.dropWhile isPyWs = [] := by
    simpa using h
  have h3 : ∀ c ∈ (l.dropWhile isPyWs).reverse, isPyWs c = true :=
    List.dropWhile_eq_nil_iff.mp h2
  intro c hc
  rw [← List.takeWhile_append_dropWhile isPyWs l] at hc
  rcases List.mem_append.mp hc with hc1 | hc2
  · exact List.mem_takeWhile_imp hc1
  · exact h3 c (List.mem_reverse.mpr hc2)

/-- Every character of every part of the split worker is a character of the
input. -/
theorem splitSepGo_chars_mem (sep : List Char) :
    ∀ (fuel : Nat) (l : List Char), ∀ p ∈ splitSepGo sep fuel l, ∀ c ∈ p, c ∈ l := by
  intro fuel
  induction fuel with
  | zero =>
    intro l p hp c hc
    simp only [splitSepGo, List.mem_singleton] at hp
    subst hp
    exact hc
  | succ fuel ih =>
    intro l
    cases l with
    | nil =>
      intro p hp c hc
      simp only [splitSepGo, List.mem_singleton] at hp
      subst hp
      simp at hc
    | cons ch rest =>
      intro p hp c hc
      rw [splitSepGo] at hp
      by_cases hcond : isPrefChars sep (ch :: rest) = true ∧ sep ≠ []
      · rw [if_pos hcond] at hp
        rcases List.mem_cons.mp hp with h1 | h2
        · subst h1
          simp at hc
        · exact List.mem_of_mem_drop (ih _ p h2 c hc)
      · rw [if_neg hcond] at hp
        cases hq : splitSepGo sep fuel rest with
        | nil =>
          rw [hq] at hp
          simp only [List.mem_singleton] at hp
          subst hp
          simp only [List.mem_singleton] at hc
          subst hc
          simp
        | cons q qs =>
          rw [hq] at hp
          rcases List.mem_cons.mp hp with h1 | h2
          · subst h1
            rcases List.mem_cons.mp hc with hcc | hcp
            · subst hcc
              simp
            · exact List.mem_cons_of_mem ch
                (ih rest q (by rw [hq]; exact List.mem_cons_self q qs) c hcp)
          · exact List.mem_cons_of_mem ch
              (ih rest p (by rw [hq]; exact List.mem_cons_of_mem q h2) c hc)

/-- Every character of every part of a split is a character of the input. -/
theorem splitSepChars_chars_mem (sep : List Char) (l : List Char) :
    ∀ p ∈ splitSepChars sep l, ∀ c ∈ p, c ∈ l :=
  fun p hp c hc => splitSepGo_chars_mem sep (l.length + 1) l p hp c hc

/-- A dict assignment yields either the assigned pair or an existing entry. -/
theorem dictInsert_mem (d : List (String × String)) (k v : String)
    (kv : String × String) (h : kv ∈ dictInsert d k v) : kv = (k, v) ∨ kv ∈ d := by
  unfold dictInsert at h
  by_cases hk : k ∈ d.map Prod.fst
  · rw [if_pos hk] at h
    rcases List.mem_map.mp h with ⟨p, hp, he⟩
    by_cases hpk : p.1 = k
    · left
      rw [← he]
      simp [hpk]
    · right
      rw [← he]
      simpa [hpk] using hp
  · rw [if_neg hk] at h
    rcases List.mem_append.mp h with h1 | h2
    · right
      exact h1
    · left
      simpa using h2

/-- Every entry produced by folding tokens into a dict of trimmed entries is
itself trimmed on both key and value. -/
theorem kvFold_trimmed (ts : List String) :
    ∀ d : List (String × String),
      (∀ kv ∈ d, kv.1 = pyStrip kv.1 ∧ kv.2 = pyStrip kv.2) →
      ∀ kv ∈ ts.foldl kvAssign d, kv.1 = pyStrip kv.1 ∧ kv.2 = pyStrip kv.2 := by
  induction ts with
  | nil =>
    intro d hd
    simpa using hd
  | cons t ts ih =>
    intro d hd
    rw [List.foldl_cons]
    apply ih
    intro kv hkv
    unfold kvAssign at hkv
    by_cases ht : pyContainsChar t '=' = true
    · rw [if_pos ht] at hkv
      rcases dictInsert_mem _ _ _ _ hkv with h1 | h2
      · rw [h1]
        exact ⟨(pyStrip_idem _).symm, (pyStrip_idem _).symm⟩
      · exact hd kv h2
    · rw [if_neg ht] at hkv
      exact hd kv hkv

/-- Claim C4 (amended): for every map-valued cell, the number of rendered
directives (here shown for ENV; ARG and LABEL render one line per entry of the
same map) equals the number of *distinct* whitespace-trimmed keys among the
`;`-tokens containing `=` — duplicated keys collapse into one directive with
the last value — and every stored key and value is whitespace-trimmed. -/
theorem spec_C4_map_directive_count (cell : String) :
    ((parse_key_value_pairs cell ";").map (fun kv => "ENV " ++ kv.1 ++ "=" ++ kv.2)).length
      = (((pySplitSep cell ";").filter (fun t => pyContainsChar t '=')).map tokenKey).dedup.length
      ∧ (parse_key_value_pairs cell ";").all
          (fun kv => kv.1 == pyStrip kv.1 && kv.2 == pyStrip kv.2) = true := by
  constructor
  · rw [List.length_map]
    unfold parse_key_value_pairs
    by_cases hb : pyStrip cell = ""
    · rw [if_pos hb]
      have hd : stripList cell.data = [] := congrArg String.data hb
      have hfil : (pySplitSep cell ";").filter (fun t => pyContainsChar t '=') = [] := by
        rw [List.filter_eq_nil_iff]
        intro t htmem
        unfold pySplitSep at htmem
        rcases List.mem_map.mp htmem with ⟨p, hp, he⟩
        have hws : ∀ c ∈ p, isPyWs c = true := fun c hc =>
          stripList_eq_nil_all_ws cell.data hd c (splitSepChars_chars_mem _ _ p hp c hc)
        intro hcontra
        have hmem : '=' ∈ t.data := by
          simpa [pyContainsChar] using hcontra
        rw [← he] at hmem
        have := hws '=' hmem
        simp [isPyWs] at this
      rw [hfil]
      rfl
    · rw [if_neg hb]
      obtain ⟨hnod, hset⟩ := kvFold_nodup_toFinset (pySplitSep cell ";") [] (by simp)
      rw [← List.length_map _ Prod.fst, ← List.toFinset_card_of_nodup hnod, hset]
      simp [List.card_toFinset]
  · rw [List.all_eq_true]
    unfold parse_key_value_pairs
    by_cases hb : pyStrip cell = ""
    · rw [if_pos hb]
      intro kv hkv
      simp at hkv
    · rw [if_neg hb]
      intro kv hkv
      obtain ⟨h1, h2⟩ := kvFold_trimmed (pySplitSep cell ";") [] (by simp) kv hkv
      simp [← h1, ← h2]

/-- Counterexample to claim C4 as stated: the cell `A=1;A=2` has two tokens
containing `=`, but the dict collapses the duplicated key `A`, so only one
ENV directive is rendered. -/
theorem spec_C4_token_count_cex :
    ((parse_key_value_pairs "A=1;A=2" ";").map (fun kv => "ENV " ++ kv.1 ++ "=" ++ kv.2)).length
      ≠ ((pySplitSep "A=1;A=2" ";").filter (fun t => pyContainsChar t '=')).length := by
  decide

/-- Claim C3 (amended): when a JSON-encoded structured cell fails strict JSON
decoding, the loader does not raise: `add_files` and `copy_pairs` degrade to
empty instruction lists, while `shell` falls back to whitespace-tokenizing the
cell text (not to `None`). -/
theorem spec_C3_json_decode_fallback (cell : String)
    (hfail : json_loads cell = none) (hne : pyStrip cell ≠ "") :
    decodeAddFiles cell = [] ∧ decodeCopyPairs cell = []
      ∧ decodeShell cell = some (pySplitWs cell) := by
  refine ⟨?_, ?_, ?_⟩
  · unfold decodeAddFiles
    rw [if_neg hne, hfail]
  · unfold decodeCopyPairs
    rw [if_neg hne, hfail]
  · unfold decodeShell
    rw [if_neg hne, hfail]

/-- Witness for C3 at the spec's own example cell `not valid json`. -/
theorem spec_C3_json_decode_fallback_witness :
    (json_loads "not valid json" = none) ∧ (pyStrip "not valid json" ≠ "")
      ∧ (decodeAddFiles "not valid json" = [] ∧ decodeCopyPairs "not valid json" = []
         ∧ decodeShell "not valid json" = some (pySplitWs "not valid json")) :=
  ⟨rfl, by decide, spec_C3_json_decode_fallback "not valid json" rfl (by decide)⟩

/-- Counterexample to claim C3 as stated: a `shell` cell that fails JSON
decoding is *not* treated as absent — the loader stores the whitespace tokens
of the cell. -/
theorem spec_C3_shell_not_null_cex :
    decodeShell "not valid json" ≠ none
      ∧ decodeShell "not valid json" = some ["not", "valid", "json"] :=
  ⟨by decide, rfl⟩

/-- Claim C2 evidence (code bug): a batch holding one malformed record (a
non-numeric port token) followed by one valid record loads **zero** stages —
the uncaught conversion error aborts the whole load instead of skipping the
one record. -/
theorem spec_C2_batch_abort :
    load_configs_from_excel [c2BadRow, c2GoodRow]
      = Except.error "could not convert string to float: abc" := rfl

/-- Claim C5 evidence (code bug): a record with an empty `base_image` cell
still yields a constructed Stage, whose `base_image` is the empty string —
the loader enforces no non-emptiness invariant. -/
theorem spec_C5_empty_base_image :
    (load_configs_from_excel [c5EmptyBaseRow]).map
        (fun m => m.map (fun p => (p.1, p.2.map (fun st => st.base_image))))
      = Except.ok [("app1", [""])] := rfl

/-! ### Artifact-store theorems -/

/-- Characterisation of `cleanup_old_files`: it deletes exactly the considered
entries older than the cutoff (reporting name, time and pre-deletion size in
scan order) and retains all others in order. -/
theorem cleanup_old_spec (days now : Int) (st : List AppEntry) :
    (cleanup_old_files days now st).1
        = (st.filter (fun e => considered e && decide (e.mtime < now - days * 86400))).map
            (fun e => { name := e.name, mtime := e.mtime, sizeBytes := get_directory_size e })
      ∧ (cleanup_old_files days now st).2
        = st.filter (fun e => !(considered e && decide (e.mtime < now - days * 86400))) := by
  induction st with
  | nil => exact ⟨rfl, rfl⟩
  | cons e es ih =>
    obtain ⟨ih1, ih2⟩ := ih
    by_cases h : (considered e && decide (e.mtime < now - days * 86400)) = true
    · obtain ⟨hA, hB'⟩ := (Bool.and_eq_true _ _).mp h
      have hB : e.mtime < now - days * 86400 := of_decide_eq_true hB'
      have hC : ¬ (now ≤ e.mtime + days * 86400) := by omega
      constructor
      · simp [cleanup_old_files, h, ih1, List.filter_cons, hA, hB]
      · simp [cleanup_old_files, h, ih2, List.filter_cons, hA, hB, hC]
    · rcases Bool.and_eq_false_iff.mp (Bool.eq_false_iff.mpr h) with hA | hB'
      · constructor
        · simp [cleanup_old_files, h, ih1, List.filter_cons, hA]
        · simp [cleanup_old_files, h, ih2, List.filter_cons, hA]
      · have hB : ¬ (e.mtime < now - days * 86400) := of_decide_eq_false hB'
        have hC : now ≤ e.mtime + days * 86400 := by omega
        constructor
        · simp [cleanup_old_files, h, ih1, List.filter_cons, hB]
        · simp [cleanup_old_files, h, ih2, List.filter_cons, hC]

/-- Characterisation of `cleanup_empty_directories`. -/
theorem cleanup_empty_spec (st : List AppEntry) :
    (cleanup_empty_directories st).1
        = (st.filter (fun e => considered e && isEmptyApp e)).map (fun e => e.name)
      ∧ (cleanup_empty_directories st).2
        = st.filter (fun e => !(considered e && isEmptyApp e)) := by
  induction st with
  | nil => exact ⟨rfl, rfl⟩
  | cons e es ih =>
    obtain ⟨ih1, ih2⟩ := ih
    by_cases h : (considered e && isEmptyApp e) = true
    · obtain ⟨hA, hB⟩ := (Bool.and_eq_true _ _).mp h
      exact ⟨by simp [cleanup_empty_directories, h, ih1, List.filter_cons, hA, hB],
        by simp [cleanup_empty_directories, h, ih2, List.filter_cons, hA, hB]⟩
    · rcases Bool.and_eq_false_iff.mp (Bool.eq_false_iff.mpr h) with hA | hB
      · exact ⟨by simp [cleanup_empty_directories, h, ih1, List.filter_cons, hA],
          by simp [cleanup_empty_directories, h, ih2, List.filter_cons, hA]⟩
      · exact ⟨by simp [cleanup_empty_directories, h, ih1, List.filter_cons, hB],
          by simp [cleanup_empty_directories, h, ih2, List.filter_cons, hB]⟩

/-- Characterisation of `cleanup_invalid_apps`. -/
theorem cleanup_invalid_spec (st : List AppEntry) :
    (cleanup_invalid_apps st).1
        = (st.filter (fun e => considered e && isInvalidApp e)).map
            (fun e => { name := e.name, reason := invalidReason e })
      ∧ (cleanup_invalid_apps st).2
        = st.filter (fun e => !(considered e && isInvalidApp e)) := by
  induction st with
  | nil => exact ⟨rfl, rfl⟩
  | cons e es ih =>
    obtain ⟨ih1, ih2⟩ := ih
    by_cases h : (considered e && isInvalidApp e) = true
    · obtain ⟨hA, hB⟩ := (Bool.and_eq_true _ _).mp h
      exact ⟨by simp [cleanup_invalid_apps, h, ih1, List.filter_cons, hA, hB],
        by simp [cleanup_invalid_apps, h, ih2, List.filter_cons, hA, hB]⟩
    · rcases Bool.and_eq_false_iff.mp (Bool.eq_false_iff.mpr h) with hA | hB
      · exact ⟨by simp [cleanup_invalid_apps, h, ih1, List.filter_cons, hA],
          by simp [cleanup_invalid_apps, h, ih2, List.filter_cons, hA]⟩
      · exact ⟨by simp [cleanup_invalid_apps, h, ih1, List.filter_cons, hB],
          by simp [cleanup_invalid_apps, h, ih2, List.filter_cons, hB]⟩

/-- Under the age criterion alone, the preview flag is the age predicate. -/
theorem previewApp_age (d now : Int) (e : AppEntry) :
    (previewApp (some d) false false now e).willBeDeleted
      = decide (e.mtime < now - d * 86400) := by
  unfold previewApp
  by_cases h : e.mtime < now - d * 86400 <;> simp [h]

/-- Under the emptiness criterion alone, the preview flag is the emptiness
predicate. -/
theorem previewApp_empty (now : Int) (e : AppEntry) :
    (previewApp none true false now e).willBeDeleted = isEmptyApp e := by
  unfold previewApp
  by_cases h : isEmptyApp e = true <;> simp [h]

/-- Under the invalidity criterion alone, the preview flag is the invalidity
predicate of `cleanup_invalid_apps`. -/
theorem previewApp_invalid (now : Int) (e : AppEntry) :
    (previewApp none false true now e).willBeDeleted = isInvalidApp e := by
  unfold previewApp isInvalidApp
  cases hf : findDockerfile e with
  | absent => simp
  | unreadable => simp
  | content c =>
    by_cases h1 : (pyStrip c == "") = true
    · simp [h1]
    · by_cases h2 : strContainsSub (pyUpper (pyStrip c)) "FROM " = true
      · simp [h1, h2]
      · simp [h1, h2]

/-- The preview row keeps the entry's name. -/
theorem previewApp_name (days : Option Int) (se si : Bool) (now : Int) (e : AppEntry) :
    (previewApp days se si now e).name = e.name := rfl

/-- The names the preview marks for deletion are the considered entries
satisfying whatever predicate the enabled criterion computes. -/
theorem preview_marked_names (days : Option Int) (se si : Bool) (now : Int)
    (st : List AppEntry) (p : AppEntry → Bool)
    (hp : ∀ e, (previewApp days se si now e).willBeDeleted = p e) :
    ((preview_cleanup days se si now st).filter (fun a => a.willBeDeleted)).map
        (fun a => a.name)
      = (st.filter (fun e => considered e && p e)).map (fun e => e.name) := by
  unfold preview_cleanup
  induction st with
  | nil => rfl
  | cons e es ih =>
    by_cases hc : considered e = true
    · by_cases hw : p e = true
      · simp [List.filter_cons, hc, hw, hp e, previewApp_name, ih]
      · have hw' : p e = false := Bool.eq_false_iff.mpr hw
        simp [List.filter_cons, hc, hw', hp e, ih]
    · have hc' : considered e = false := Bool.eq_false_iff.mpr hc
      simp [List.filter_cons, hc', ih]

/-- Claim C6: on every output-directory state, the set (indeed the scan-order
list) of application directories the preview marks `will_be_deleted` under one
criterion — age threshold, emptiness, or invalidity — is exactly the set the
corresponding destructive cleanup deletes on that same state. -/
theorem spec_C6_preview_matches_cleanup (st : List AppEntry) (d now : Int) :
    (((preview_cleanup (some d) false false now st).filter (fun a => a.willBeDeleted)).map
        (fun a => a.name)
      = (cleanup_old_files d now st).1.map (fun r => r.name))
    ∧ (((preview_cleanup none true false now st).filter (fun a => a.willBeDeleted)).map
        (fun a => a.name)
      = (cleanup_empty_directories st).1)
    ∧ (((preview_cleanup none false true now st).filter (fun a => a.willBeDeleted)).map
        (fun a => a.name)
      = (cleanup_invalid_apps st).1.map (fun r => r.name)) := by
  refine ⟨?_, ?_, ?_⟩
  · rw [preview_marked_names (some d) false false now st _ (previewApp_age d now),
      (cleanup_old_spec d now st).1, List.map_map]
    apply List.map_congr_left
    intro e _
    rfl
  · rw [preview_marked_names none true false now st _ (previewApp_empty now),
      (cleanup_empty_spec st).1]
  · rw [preview_marked_names none false true now st _ (previewApp_invalid now),
      (cleanup_invalid_spec st).1, List.map_map]
    apply List.map_congr_left
    intro e _
    rfl

/-- Claim C8: for every state and day threshold, cleanup-by-age deletes
exactly the considered (non-hidden directory) entries whose last-modified time
precedes now minus the threshold, reports each with its pre-deletion recursive
byte size, and retains exactly the remaining entries. -/
theorem spec_C8_cleanup_by_age (days now : Int) (st : List AppEntry) :
    (cleanup_old_files days now st).1
        = (st.filter (fun e => considered e && decide (e.mtime < now - days * 86400))).map
            (fun e => { name := e.name, mtime := e.mtime, sizeBytes := get_directory_size e })
      ∧ (cleanup_old_files days now st).2
        = st.filter (fun e => !(considered e && decide (e.mtime < now - days * 86400))) :=
  cleanup_old_spec days now st

/-- `os.path.exists` agrees with the Dockerfile lookup: a Dockerfile entry
exists exactly when the lookup is not `absent`. -/
theorem hasDockerfileEntry_iff (e : AppEntry) :
    hasDockerfileEntry e = true ↔ findDockerfile e ≠ DfStatus.absent := by
  unfold hasDockerfileEntry findDockerfile
  cases hf : e.children.find? (fun n => fsName n == "Dockerfile") with
  | none =>
    have hnone := List.find?_eq_none.mp hf
    constructor
    · intro hany
      rcases List.any_eq_true.mp hany with ⟨n, hn, hp⟩
      exact absurd hp (hnone n hn)
    · intro hne
      exact absurd rfl hne
  | some n =>
    constructor
    · intro _
      cases n <;> simp
    · intro _
      exact List.any_eq_true.mpr
        ⟨n, List.mem_of_find?_eq_some hf,
          @List.find?_some FSNode (fun n => fsName n == "Dockerfile") n e.children hf⟩

/-- The two in-source invalidity checks (cleanup and storage summary) agree. -/
theorem isInvalid_cleanup_eq_summary (e : AppEntry) :
    isInvalidApp e = isInvalidSummary e := by
  unfold isInvalidApp isInvalidSummary
  cases hf : findDockerfile e with
  | absent =>
    have hhas : hasDockerfileEntry e = false := by
      rw [Bool.eq_false_iff]
      intro hcl
      exact (hasDockerfileEntry_iff e).mp hcl hf
    simp [hhas]
  | unreadable =>
    have hhas : hasDockerfileEntry e = true :=
      (hasDockerfileEntry_iff e).mpr (by rw [hf]; intro hc; cases hc)
    simp [hhas]
  | content c =>
    have hhas : hasDockerfileEntry e = true :=
      (hasDockerfileEntry_iff e).mpr (by rw [hf]; intro hc; cases hc)
    simp [hhas]

/-- Claim C7 (amended): an application directory is classified invalid iff it
has no Dockerfile entry, or its Dockerfile is unreadable, or the stripped
content is empty, or the uppercased stripped content does not contain the
*substring* `"FROM "` — a case-insensitive substring search anywhere in the
file, not a check for a FROM instruction at the start of a line; and the
storage-summary classification agrees with the cleanup one. -/
theorem spec_C7_invalid_classification (e : AppEntry) :
    (isInvalidApp e = true ↔
        (findDockerfile e = DfStatus.absent ∨ findDockerfile e = DfStatus.unreadable
          ∨ ∃ c, findDockerfile e = DfStatus.content c
              ∧ (pyStrip c = ""
                 ∨ strContainsSub (pyUpper (pyStrip c)) "FROM " = false)))
    ∧ isInvalidApp e = isInvalidSummary e := by
  refine ⟨?_, isInvalid_cleanup_eq_summary e⟩
  unfold isInvalidApp
  cases hf : findDockerfile e with
  | absent => simp
  | unreadable => simp
  | content c =>
    constructor
    · intro h
      refine Or.inr (Or.inr ⟨c, rfl, ?_⟩)
      rcases (Bool.or_eq_true _ _).mp h with h1 | h2
      · exact Or.inl (by simpa using h1)
      · exact Or.inr (by simpa using h2)
    · intro h
      rcases h with h1 | h1 | ⟨c2, hc2, h2⟩
      · cases h1
      · cases h1
      · have hcc : c2 = c := by
          injection hc2 with h
          exact h.symm
        subst hcc
        rcases h2 with h3 | h3
        · simp [h3]
        · simp [h3]

/-- Counterexample to claim C7 as stated: the Dockerfile `RUN echo built from
source` contains no FROM instruction (no line's first token is FROM), so the
claim calls the directory invalid — but the code's substring check finds
`"FROM "` inside the uppercased RUN argument and classifies it valid. -/
theorem spec_C7_from_instruction_cex :
    ¬ (isInvalidApp c7Entry = true ↔
        (findDockerfile c7Entry = DfStatus.absent
          ∨ findDockerfile c7Entry = DfStatus.unreadable
          ∨ ∃ c, findDockerfile c7Entry = DfStatus.content c
              ∧ (pyStrip c = "" ∨ hasFromInstruction c = false))) := by
  intro h
  have h1 : isInvalidApp c7Entry = false := by decide
  have h2 := h.mpr
    (Or.inr (Or.inr ⟨"RUN echo built from source", rfl, Or.inr (by decide)⟩))
  rw [h1] at h2
  exact Bool.false_ne_true h2

/-- The lengths of a filter and its complement partition the list length. -/
theorem filter_not_partition {α : Type} (p : α → Bool) (l : List α) :
    (l.filter p).length + (l.filter (fun a => !p a)).length = l.length := by
  induction l with
  | nil => rfl
  | cons a l ih =>
    by_cases h : p a = true
    · simp [List.filter_cons, h]
      omega
    · have h' : p a = false := Bool.eq_false_iff.mpr h
      simp [List.filter_cons, h']
      omega

/-- In the storage summary, an app not counted invalid has a Dockerfile. -/
theorem summary_invalid_imp_has (e : AppEntry) :
    isInvalidSummary e = false → hasDockerfileEntry e = true := by
  unfold isInvalidSummary
  by_cases h : hasDockerfileEntry e = true
  · intro _
    exact h
  · have h' : hasDockerfileEntry e = false := Bool.eq_false_iff.mpr h
    simp [h']

/-- Claim C10: in every storage summary, the valid/invalid classifications
partition the listed applications — an app is counted valid (has a Dockerfile
and is not invalid) exactly when it is not counted invalid, so
`valid_apps + invalid_apps = total_apps`. -/
theorem spec_C10_valid_invalid_partition (st : List AppEntry) :
    ((get_storage_summary st).valid_apps + (get_storage_summary st).invalid_apps
        = (get_storage_summary st).total_apps)
    ∧ ((get_storage_summary st).apps.filter (fun a => a.has_dockerfile && !a.is_invalid)
        = (get_storage_summary st).apps.filter (fun a => !a.is_invalid)) := by
  have hpt : ∀ a ∈ (st.filter considered).map summaryAppOf,
      (a.has_dockerfile && !a.is_invalid) = !a.is_invalid := by
    intro a ha
    rcases List.mem_map.mp ha with ⟨e, he, rfl⟩
    by_cases hinv : isInvalidSummary e = true
    · simp [summaryAppOf, hinv]
    · have hinv' : isInvalidSummary e = false := Bool.eq_false_iff.mpr hinv
      have hhas := summary_invalid_imp_has e hinv'
      simp [summaryAppOf, hhas, hinv']
  constructor
  · show (((st.filter considered).map summaryAppOf).filter
          (fun a => a.has_dockerfile && !a.is_invalid)).length
        + (((st.filter considered).map summaryAppOf).filter (fun a => a.is_invalid)).length
      = ((st.filter considered).map summaryAppOf).length
    have hp2 : ((st.filter considered).map summaryAppOf).filter (fun a => a.is_invalid)
        = ((st.filter considered).map summaryAppOf).filter (fun a => !(!a.is_invalid)) :=
      List.filter_congr (fun a _ => by simp)
    rw [List.filter_congr hpt, hp2]
    exact filter_not_partition (fun a : SummaryApp => !a.is_invalid) _
  · show (((st.filter considered).map summaryAppOf).mergeSort
          (fun a b : SummaryApp => decide (b.mtime ≤ a.mtime))).filter
            (fun a => a.has_dockerfile && !a.is_invalid)
      = (((st.filter considered).map summaryAppOf).mergeSort
          (fun a b : SummaryApp => decide (b.mtime ≤ a.mtime))).filter (fun a => !a.is_invalid)
    apply List.filter_congr
    intro a ha
    exact hpt a (List.mem_mergeSort.mp ha)
